import Mathlib

/-!
Verification of the queue-time metrics collector (hack_webapp.py,
queue_stats_collector.py, k8s-queue-monitor/queue_time_collector.py,
k8s-queue-monitor/process_logs.py).

Shallow embedding conventions:
* instants are modelled as integer seconds (the CSV layer stores timestamps at
  one-second granularity via strftime, a monotone encoding of the instant);
* the external kubectl call is modelled by its parsed outcome,
  `Except String (List RawPod)`: an exception inside `collect_queue_times`
  corresponds to the `Except.error` case;
* pandas DataFrames of sample rows are modelled as `List Sample` in row order;
* `pandas.sort_values` is called with its default kind (quicksort), which the
  pandas documentation does not guarantee to be stable; the embedding therefore
  has, next to an executable stable-sort resolution, a relational version in
  which the result is any permutation ordered by the sort key.
-/

/-- One collected sample row: the columns `Timestamp, Namespace, Pod, PodUID,
QueueTime, CreationTime, StartTime` of the persisted CSV
(`queue_time_collector.py`).  The `Namespace` column is named `ns` here. -/
structure Sample where
  timestamp : Int
  ns : String
  name : String
  uid : String
  queueTime : Int
  creationTime : Int
  startTime : Int
deriving DecidableEq

/-- One raw workload record parsed from the kubectl JSON payload: metadata
namespace/name/uid, `creationTimestamp`, and the optional `status.startTime`
(absent while the pod has not started). -/
structure RawPod where
  ns : String
  name : String
  uid : String
  creationTimestamp : Int
  startTime : Option Int
deriving DecidableEq

/-- The sanity ceiling on queue times: `30 * 24 * 60 * 60` seconds
(`queue_time_collector.py` line 87, `hack_webapp.py` line 140). -/
def sanityCeiling : Int := 30 * 24 * 60 * 60

/-- The per-record processing loop of `collect_queue_times`
(`queue_time_collector.py` lines 68-98, identically `hack_webapp.py`
lines 122-159): skip excluded namespaces, skip pods with no start time,
compute `queue_time = start - creation`, skip records whose queue time
exceeds the 30-day ceiling.  The source has no lower-bound check. -/
def processPods (excl : List String) (now : Int) (pods : List RawPod) : List Sample :=
  pods.filterMap fun p =>
    if p.ns ∈ excl then none
    else
      match p.startTime with
      | none => none
      | some st =>
        if st - p.creationTimestamp > sanityCeiling then none
        else some ⟨now, p.ns, p.name, p.uid, st - p.creationTimestamp,
          p.creationTimestamp, st⟩

/-- `collect_queue_times` as seen from its caller: the kubectl subprocess call
plus JSON parsing either yields a pod list (`Except.ok`) or raises
(`Except.error`, covering `CalledProcessError`, `JSONDecodeError` and any
other exception).  Every `except` branch of the source returns the empty
DataFrame (`queue_time_collector.py` lines 102-104, `hack_webapp.py`
lines 163-172). -/
def collect_queue_times (excl : List String) (now : Int)
    (src : Except String (List RawPod)) : List Sample :=
  match src with
  | Except.error _ => []
  | Except.ok pods => processPods excl now pods

/-- The retention cutoff used by `update_persistent_storage`:
`pd.Timestamp.now() - pd.Timedelta(days=7)` (`queue_time_collector.py`
line 114). -/
def evictCutoff (now : Int) : Int := now - 7 * 86400

/-- `update_persistent_storage` (`queue_time_collector.py` lines 106-123):
when the new batch is nonempty, concatenate it onto the historical data, keep
only rows with `Timestamp >= cutoff`, and write the result to disk; when the
new batch is empty the whole body is skipped.  Returns the new in-memory
state and whether the file was written. -/
def update_persistent_storage (hist newData : List Sample) (now : Int) :
    List Sample × Bool :=
  match newData with
  | [] => (hist, false)
  | _ =>
    ((hist ++ newData).filter fun s => decide (evictCutoff now ≤ s.timestamp), true)

/-- The historical-data initialization in `QueueTimeCollector.__init__`
(`queue_time_collector.py` lines 36-44): if the persisted CSV exists it is
read in full (`pd.read_csv`, no filtering); otherwise the store starts
empty. -/
def init_historical_data (persisted : Option (List Sample)) : List Sample :=
  match persisted with
  | some rows => rows
  | none => []

/-! ### Deduplication (`process_logs.py` line 48) -/

/-- Ordering of samples by the `Timestamp` column, the key of
`sort_values('Timestamp')`. -/
def tsLe (a b : Sample) : Prop := a.timestamp ≤ b.timestamp

instance : DecidableRel tsLe := fun a b =>
  inferInstanceAs (Decidable (a.timestamp ≤ b.timestamp))

instance : IsTotal Sample tsLe := ⟨fun a b => Int.le_total a.timestamp b.timestamp⟩

instance : IsTrans Sample tsLe := ⟨fun _ _ _ h1 h2 => le_trans h1 h2⟩

/-- `drop_duplicates(subset=['PodUID'])` with the default `keep='first'`:
walk the rows in order, keeping a row iff its uid has not been seen yet. -/
def dropDupByUid (seen : List String) : List Sample → List Sample
  | [] => []
  | s :: rest =>
    if s.uid ∈ seen then dropDupByUid seen rest
    else s :: dropDupByUid (s.uid :: seen) rest

/-- A stable resolution of `sort_values('Timestamp')`: insertion sort by
timestamp, which keeps equal-timestamp rows in input order. -/
def sortByTimestamp (l : List Sample) : List Sample := List.insertionSort tsLe l

/-- The deduplication of `process_logs.py` line 48
(`raw_data.sort_values('Timestamp').drop_duplicates(subset=['PodUID'])`),
resolved with a stable sort. -/
def dedup (l : List Sample) : List Sample := dropDupByUid [] (sortByTimestamp l)

/-- The behaviours `process_logs.py` line 48 is actually guaranteed to have:
`sort_values` with the default (not stable) quicksort yields some permutation
of the input that is ordered by `Timestamp`, and `drop_duplicates` then keeps
the first row of each uid in that permutation.  `dedupRel S D` states that `D`
is a possible result of deduplicating `S`. -/
def dedupRel (S D : List Sample) : Prop :=
  ∃ p : List Sample, p.Perm S ∧ p.Pairwise tsLe ∧ D = dropDupByUid [] p

/-! ### Per-namespace statistics (`queue_stats_collector.py` lines 212-233) -/

/-- One row of the per-namespace statistics table built by
`generate_statistics`: `PodCount` (`nunique` pod names), and the mean, max
and min of `QueueTime` over the namespace's rows.  The `StdQueueTime` column
is not modelled: it is an irrational square root and no claim depends on
it. -/
structure GroupStat where
  key : String
  podCount : Nat
  avg : ℚ
  maxQt : Int
  minQt : Int
deriving DecidableEq

/-- Lexicographic comparison of char lists by code point, the order numpy
uses when pandas `groupby(sort=True)` sorts string group keys. -/
def lexLe : List Char → List Char → Bool
  | [], _ => true
  | _ :: _, [] => false
  | a :: as, b :: bs =>
    if a.val < b.val then true
    else if b.val < a.val then false
    else lexLe as bs

/-- Code-point order on strings (kernel-computable, unlike the builtin
iterator-based comparison). -/
def strLe (a b : String) : Prop := lexLe a.data b.data = true

instance : DecidableRel strLe := fun a b =>
  inferInstanceAs (Decidable (lexLe a.data b.data = true))

/-- The group keys produced by `groupby('Namespace')`: the distinct
namespaces, sorted (pandas `groupby` defaults to `sort=True`). -/
def nsKeys (S : List Sample) : List String :=
  List.insertionSort strLe ((S.map fun s => s.ns).dedup)

/-- The rows of one namespace group. -/
def groupRows (S : List Sample) (k : String) : List Sample :=
  S.filter fun s => s.ns == k

/-- Maximum of a list of queue times (groups are nonempty, so the default for
the empty list is never observed). -/
def qtMax : List Int → Int
  | [] => 0
  | q :: rest => rest.foldl max q

/-- Minimum of a list of queue times. -/
def qtMin : List Int → Int
  | [] => 0
  | q :: rest => rest.foldl min q

/-- The aggregate row `groupby('Namespace').agg(PodCount=('Pod','nunique'),
AvgQueueTime=('QueueTime','mean'), MaxQueueTime=('QueueTime','max'),
MinQueueTime=('QueueTime','min'))` for one key
(`queue_stats_collector.py` lines 212-218). -/
def groupStat (S : List Sample) (k : String) : GroupStat :=
  let rows := groupRows S k
  let qts : List Int := rows.map fun s => s.queueTime
  { key := k
    podCount := ((rows.map fun s => s.name).dedup).length
    avg := (qts.map fun q => (q : ℚ)).sum / (rows.length : ℚ)
    maxQt := qtMax qts
    minQt := qtMin qts }

/-- The full aggregate table before the final sort, rows in group-key order as
produced by `groupby(...).agg(...).reset_index()`. -/
def groupStats (S : List Sample) : List GroupStat :=
  (nsKeys S).map (groupStat S)

/-- Ordering of group rows by descending mean queue time, the key of
`sort_values('AvgQueueTime', ascending=False)`
(`queue_stats_collector.py` line 233). -/
def meanGe (a b : GroupStat) : Prop := b.avg ≤ a.avg

instance : DecidableRel meanGe := fun a b =>
  inferInstanceAs (Decidable (b.avg ≤ a.avg))

instance : IsTotal GroupStat meanGe := ⟨fun a b => le_total b.avg a.avg⟩

instance : IsTrans GroupStat meanGe := ⟨fun _ _ _ h1 h2 => le_trans h2 h1⟩

/-- The namespace statistics table of `generate_statistics`, with the final
descending sort by mean resolved stably. -/
def byGroup (S : List Sample) : List GroupStat :=
  List.insertionSort meanGe (groupStats S)

/-- The guaranteed behaviour of the final
`sort_values('AvgQueueTime', ascending=False)` under the default (not stable)
quicksort: some permutation of the aggregate table that is ordered by
non-increasing mean.  `byGroupRel S out` states that `out` is a possible
namespace-statistics table for `S`. -/
def byGroupRel (S : List Sample) (out : List GroupStat) : Prop :=
  out.Perm (groupStats S) ∧ out.Pairwise meanGe

/-! ### The collection loop (`queue_stats_collector.py` lines 138-174,
`hack_webapp.py` lines 174-210) -/

/-- The two exceptions `run_collection` itself can raise:
`iterations = int(self.duration_mins * 60 / self.interval_secs)` divides by
zero when the interval is 0, and `time.sleep` raises `ValueError` on a
negative argument. -/
inductive RunError where
  | zeroDivision
  | negativeSleep
deriving DecidableEq

/-- Observable outcome of one `run_collection` call: how many sampling
iterations ran, how many inter-iteration sleeps completed, and the exception
that ended the loop early, if any. -/
structure RunResult where
  iters : Nat
  sleeps : Nat
  err : Option RunError
deriving DecidableEq

/-- `run_collection` (`queue_stats_collector.py` lines 138-174): derive
`iterations = int(duration_mins * 60 / interval_secs)` (Python float division
truncated toward zero, a `ZeroDivisionError` when the interval is 0), then
`for i in range(1, iterations + 1)` collect once per iteration and sleep
`interval_secs` whenever `i < iterations`.  A negative interval with at least
two iterations reaches `time.sleep` with a negative argument after the first
iteration, which raises.  There is no validation of the configuration. -/
def run_collection (duration_mins interval_secs : Int) : RunResult :=
  if interval_secs = 0 then ⟨0, 0, some RunError.zeroDivision⟩
  else
    let iterations := (Int.tdiv (duration_mins * 60) interval_secs).toNat
    if interval_secs < 0 ∧ 2 ≤ iterations then ⟨1, 0, some RunError.negativeSleep⟩
    else ⟨iterations, iterations - 1, none⟩

/-! ### Basic facts about `dropDupByUid` -/

/-- Deduplication only ever removes rows: the output is a sublist of the
input. -/
theorem dropDupByUid_sublist (seen : List String) (l : List Sample) :
    (dropDupByUid seen l).Sublist l := by
  induction l generalizing seen with
  | nil => simp [dropDupByUid]
  | cons s rest ih =>
    by_cases hs : s.uid ∈ seen
    · simp only [dropDupByUid, if_pos hs]
      exact List.Sublist.cons s (ih seen)
    · simp only [dropDupByUid, if_neg hs]
      exact List.Sublist.cons₂ s (ih _)

/-- A kept row's uid was not among the already-seen uids. -/
theorem uid_not_seen_of_mem_dropDupByUid {seen : List String} {l : List Sample}
    {x : Sample} (hx : x ∈ dropDupByUid seen l) : x.uid ∉ seen := by
  induction l generalizing seen with
  | nil => simp [dropDupByUid] at hx
  | cons s rest ih =>
    by_cases hs : s.uid ∈ seen
    · simp only [dropDupByUid, if_pos hs] at hx
      exact ih hx
    · simp only [dropDupByUid, if_neg hs] at hx
      rcases List.mem_cons.mp hx with h | h
      · subst h; exact hs
      · intro hm
        exact ih h (List.mem_cons_of_mem _ hm)

/-- The kept rows have pairwise distinct uids. -/
theorem nodup_uid_dropDupByUid (seen : List String) (l : List Sample) :
    ((dropDupByUid seen l).map fun s => s.uid).Nodup := by
  induction l generalizing seen with
  | nil => simp [dropDupByUid]
  | cons s rest ih =>
    by_cases hs : s.uid ∈ seen
    · simp only [dropDupByUid, if_pos hs]
      exact ih seen
    · simp only [dropDupByUid, if_neg hs, List.map_cons, List.nodup_cons]
      refine ⟨?_, ih _⟩
      intro hmem
      rcases List.mem_map.mp hmem with ⟨y, hy, hyu⟩
      exact uid_not_seen_of_mem_dropDupByUid hy (by rw [hyu]; exact List.mem_cons_self _ _)

/-- Every uid present in the input (and not already seen) is represented in
the output. -/
theorem exists_mem_dropDupByUid {u : String} {seen : List String}
    {l : List Sample} (hu : u ∉ seen) (h : ∃ s ∈ l, s.uid = u) :
    ∃ s ∈ dropDupByUid seen l, s.uid = u := by
  induction l generalizing seen with
  | nil => simp at h
  | cons s rest ih =>
    by_cases hs : s.uid ∈ seen
    · simp only [dropDupByUid, if_pos hs]
      apply ih hu
      rcases h with ⟨t, ht, htu⟩
      rcases List.mem_cons.mp ht with h1 | h1
      · exact absurd (by rw [← htu, h1]; exact hs) hu
      · exact ⟨t, h1, htu⟩
    · simp only [dropDupByUid, if_neg hs]
      by_cases hus : u = s.uid
      · exact ⟨s, List.mem_cons_self _ _, hus.symm⟩
      · have hu2 : u ∉ s.uid :: seen := by
          intro hm
          rcases List.mem_cons.mp hm with h1 | h1
          · exact hus h1
          · exact hu h1
        rcases h with ⟨t, ht, htu⟩
        rcases List.mem_cons.mp ht with h1 | h1
        · exact absurd (by rw [← htu, h1]) hus
        · rcases ih hu2 ⟨t, h1, htu⟩ with ⟨y, hy, hyu⟩
          exact ⟨y, List.mem_cons_of_mem _ hy, hyu⟩

/-- On a timestamp-ordered input, the kept row of each uid carries the least
timestamp of its uid group. -/
theorem min_ts_dropDupByUid {l : List Sample} (hsort : l.Pairwise tsLe)
    {seen : List String} {x : Sample} (hx : x ∈ dropDupByUid seen l) :
    ∀ t ∈ l, t.uid = x.uid → x.timestamp ≤ t.timestamp := by
  induction l generalizing seen with
  | nil => simp [dropDupByUid] at hx
  | cons s rest ih =>
    rcases List.pairwise_cons.mp hsort with ⟨hhead, htail⟩
    intro t ht htu
    by_cases hs : s.uid ∈ seen
    · simp only [dropDupByUid, if_pos hs] at hx
      rcases List.mem_cons.mp ht with h1 | h1
      · exfalso
        apply uid_not_seen_of_mem_dropDupByUid hx
        rw [← htu, h1]
        exact hs
      · exact ih htail hx t h1 htu
    · simp only [dropDupByUid, if_neg hs] at hx
      rcases List.mem_cons.mp hx with h1 | h1
      · subst h1
        rcases List.mem_cons.mp ht with h2 | h2
        · rw [h2]
        · exact hhead t h2
      · rcases List.mem_cons.mp ht with h2 | h2
        · exfalso
          apply uid_not_seen_of_mem_dropDupByUid h1
          rw [← htu, h2]
          exact List.mem_cons_self _ _
        · exact ih htail h1 t h2 htu

/-- Deduplication is the identity on an input whose uids are already pairwise
distinct and disjoint from the seen set. -/
theorem dropDupByUid_eq_self {seen : List String} {l : List Sample}
    (h1 : ∀ s ∈ l, s.uid ∉ seen) (h2 : (l.map fun s => s.uid).Nodup) :
    dropDupByUid seen l = l := by
  induction l generalizing seen with
  | nil => simp [dropDupByUid]
  | cons s rest ih =>
    have hs : s.uid ∉ seen := h1 s (List.mem_cons_self _ _)
    simp only [List.map_cons, List.nodup_cons] at h2
    simp only [dropDupByUid, if_neg hs]
    congr 1
    apply ih _ h2.2
    intro t ht hm
    rcases List.mem_cons.mp hm with hh | hh
    · exact h2.1 (List.mem_map.mpr ⟨t, ht, hh⟩)
    · exact h1 t (List.mem_cons_of_mem _ ht) hh

/-- The stable-sort resolution `dedup` is one of the outcomes the source's
sort-then-drop-duplicates line can produce. -/
theorem dedupRel_dedup (S : List Sample) : dedupRel S (dedup S) :=
  ⟨sortByTimestamp S, List.perm_insertionSort tsLe S,
    List.sorted_insertionSort tsLe S, rfl⟩

/-! ### Claim theorems -/

/-- C1 (amended): every emitted sample has a namespace outside the excluded
set and a queue time at most the 30-day sanity ceiling; however, records with
`start < creation` are emitted with a negative queue time rather than dropped
(the source checks only the upper bound). -/
theorem c1_sampler_filters (excl : List String) (now : Int) (pods : List RawPod)
    (s : Sample) (hs : s ∈ processPods excl now pods) :
    s.ns ∉ excl ∧ s.queueTime ≤ sanityCeiling := by
  rcases List.mem_filterMap.mp hs with ⟨p, hp, hf⟩
  by_cases hex : p.ns ∈ excl
  · rw [if_pos hex] at hf
    cases hf
  · rw [if_neg hex] at hf
    cases hst : p.startTime with
    | none => rw [hst] at hf; cases hf
    | some st =>
      rw [hst] at hf
      dsimp only at hf
      by_cases hq : st - p.creationTimestamp > sanityCeiling
      · rw [if_pos hq] at hf
        cases hf
      · rw [if_neg hq] at hf
        cases Option.some.inj hf
        exact ⟨hex, not_lt.mp hq⟩

/-- C1 counterexample: a record whose start precedes its creation
(creation 100, start 0) is not dropped — it is emitted with
`queueTime = -100 < 0`, contradicting the claim that the sampler never emits
a sample with negative queue time. -/
theorem c1_counterexample :
    processPods [] 0 [⟨"ns1", "pod1", "uid1", 100, some 0⟩] =
      [⟨0, "ns1", "pod1", "uid1", -100, 100, 0⟩] ∧
    (-100 : Int) < 0 := by decide

/-- C1 witness: the amended theorem applied at a concrete input. -/
theorem c1_witness :
    (⟨7, "good", "p", "u", 10, 0, 10⟩ : Sample) ∈
      processPods ["kube-system"] 7 [⟨"good", "p", "u", 0, some 10⟩] ∧
    (("good" : String) ∉ ["kube-system"] ∧ (10 : Int) ≤ sanityCeiling) :=
  ⟨by decide,
    c1_sampler_filters ["kube-system"] 7 [⟨"good", "p", "u", 0, some 10⟩]
      ⟨7, "good", "p", "u", 10, 0, 10⟩ (by decide)⟩

/-- C2: whenever the append-and-evict body of `update_persistent_storage`
actually runs (the new batch is nonempty), the resulting store holds no
sample with a timestamp strictly older than `now - 7` days, and every sample
of the appended data whose timestamp lies inside the window is retained. -/
theorem c2_evict_window (hist newData : List Sample) (now : Int)
    (hne : newData ≠ []) :
    (∀ s ∈ (update_persistent_storage hist newData now).1,
        ¬ s.timestamp < evictCutoff now) ∧
    (∀ s ∈ hist ++ newData, evictCutoff now ≤ s.timestamp →
        s ∈ (update_persistent_storage hist newData now).1) := by
  cases newData with
  | nil => exact absurd rfl hne
  | cons d ds =>
    constructor
    · intro s hsmem
      simp only [update_persistent_storage] at hsmem
      rcases List.mem_filter.mp hsmem with ⟨_, hcond⟩
      rw [decide_eq_true_eq] at hcond
      exact not_lt.mpr hcond
    · intro s hsm hts
      simp only [update_persistent_storage]
      exact List.mem_filter.mpr ⟨hsm, by rw [decide_eq_true_eq]; exact hts⟩

/-- C2 witness: the theorem applied at a concrete store, batch and clock. -/
theorem c2_witness :
    ([⟨1000000, "a", "q", "v", 2, 0, 0⟩] : List Sample) ≠ [] ∧
    ((∀ s ∈ (update_persistent_storage [⟨0, "a", "p", "u", 1, 0, 0⟩]
        [⟨1000000, "a", "q", "v", 2, 0, 0⟩] 1000000).1,
        ¬ s.timestamp < evictCutoff 1000000) ∧
      (∀ s ∈ ([⟨0, "a", "p", "u", 1, 0, 0⟩] : List Sample) ++
          [⟨1000000, "a", "q", "v", 2, 0, 0⟩],
          evictCutoff 1000000 ≤ s.timestamp →
          s ∈ (update_persistent_storage [⟨0, "a", "p", "u", 1, 0, 0⟩]
            [⟨1000000, "a", "q", "v", 2, 0, 0⟩] 1000000).1)) :=
  ⟨by decide,
    c2_evict_window [⟨0, "a", "p", "u", 1, 0, 0⟩]
      [⟨1000000, "a", "q", "v", 2, 0, 0⟩] 1000000 (by decide)⟩

/-- C5 counterexample: constructing the collector over a persisted file whose
only sample is far older than the 7-day window relative to the load time
keeps that sample anyway — `__init__` reads the CSV without any filtering,
contradicting the claim that stale pre-window data is discarded at load. -/
theorem c5_counterexample :
    init_historical_data (some [⟨0, "a", "p", "u", 5, 0, 0⟩]) =
      [⟨0, "a", "p", "u", 5, 0, 0⟩] ∧
    (0 : Int) < evictCutoff 10000000 := by decide

/-- C5 (amended): construction over an existing persisted file loads it in
full, retaining every sample regardless of age; stale samples are removed
only by the eviction of the next nonempty collection cycle (an empty cycle
leaves them in place). -/
theorem c5_load_unfiltered (rows : List Sample) :
    init_historical_data (some rows) = rows ∧
    init_historical_data none = [] ∧
    ∀ now : Int,
      (update_persistent_storage (init_historical_data (some rows)) [] now).1 = rows :=
  ⟨rfl, rfl, fun _ => rfl⟩

/-- C6 counterexample: a failed data-source call produces exactly the same
value as a successful call that found zero workloads — the empty sample
list — so the failure is not distinguishable from a valid empty snapshot. -/
theorem c6_counterexample :
    collect_queue_times [] 0 (Except.error "kubectl failed") =
      collect_queue_times [] 0 (Except.ok []) := rfl

/-- C6 (amended): a data-source failure emits no samples at all (so no
partial sequence is ever produced), but the result is the empty list, the
very value a valid zero-workload snapshot yields; callers cannot tell the
two apart from the returned data. -/
theorem c6_failure_empty (excl : List String) (now : Int) (msg : String) :
    collect_queue_times excl now (Except.error msg) = [] ∧
    collect_queue_times excl now (Except.ok []) = [] :=
  ⟨rfl, rfl⟩

/-- C10: a collection cycle that yields an empty sample batch leaves the
persistent store untouched: the in-memory historical data is returned
unchanged, no eviction filter is applied, and the written flag is false. -/
theorem c10_empty_batch_noop (hist : List Sample) (now : Int) :
    update_persistent_storage hist [] now = (hist, false) := rfl

/-- C3 counterexample: two rows share uid "u1" and the same timestamp 1.
Because the sort is not stable, the permutation putting the second input row
first is a legitimate outcome of `sort_values('Timestamp')`, and
`drop_duplicates` then keeps that second row — not the first sample
encountered in input order (which the stable resolution `dedup` keeps).
The claimed input-order tie-break is therefore not guaranteed. -/
theorem c3_counterexample :
    dedupRel [⟨1, "a", "p1", "u1", 10, 0, 1⟩, ⟨1, "a", "p2", "u1", 12, 0, 1⟩]
      [⟨1, "a", "p2", "u1", 12, 0, 1⟩] ∧
    dedup [⟨1, "a", "p1", "u1", 10, 0, 1⟩, ⟨1, "a", "p2", "u1", 12, 0, 1⟩] =
      [⟨1, "a", "p1", "u1", 10, 0, 1⟩] ∧
    ([⟨1, "a", "p2", "u1", 12, 0, 1⟩] : List Sample) ≠
      [⟨1, "a", "p1", "u1", 10, 0, 1⟩] := by
  refine ⟨⟨[⟨1, "a", "p2", "u1", 12, 0, 1⟩, ⟨1, "a", "p1", "u1", 10, 0, 1⟩],
    by decide, by decide, by decide⟩, by decide, by decide⟩

/-- C3 (amended): every possible result of the sort-then-drop-duplicates
line keeps exactly one sample per distinct uid (pairwise distinct uids,
every input uid represented, every output row drawn from the input), and the
kept sample has the earliest timestamp within its uid group; which of several
equal-earliest-timestamp samples is kept is however unspecified, because the
default sort is not stable. -/
theorem c3_dedup_unique_earliest (S D : List Sample) (h : dedupRel S D) :
    ((D.map fun s => s.uid).Nodup) ∧
    (∀ u : String, (∃ s ∈ S, s.uid = u) → ∃ s ∈ D, s.uid = u) ∧
    (∀ s ∈ D, s ∈ S) ∧
    (∀ s ∈ D, ∀ t ∈ S, t.uid = s.uid → s.timestamp ≤ t.timestamp) := by
  rcases h with ⟨p, hperm, hsort, rfl⟩
  refine ⟨nodup_uid_dropDupByUid [] p, ?_, ?_, ?_⟩
  · intro u hu
    apply exists_mem_dropDupByUid (List.not_mem_nil u)
    rcases hu with ⟨s, hs, hsu⟩
    exact ⟨s, hperm.mem_iff.mpr hs, hsu⟩
  · intro s hs
    exact hperm.subset ((dropDupByUid_sublist [] p).subset hs)
  · intro s hs t ht htu
    exact min_ts_dropDupByUid hsort hs t (hperm.mem_iff.mpr ht) htu

/-- The spec scenario input for the deduplication witness: uid "u1" observed
twice (timestamps 1 and 2), uid "u2" once. -/
def dedupScenario : List Sample :=
  [⟨1, "a", "p1", "u1", 10, 0, 1⟩, ⟨2, "a", "p2", "u1", 12, 0, 2⟩,
    ⟨1, "b", "p3", "u2", 5, 0, 1⟩]

/-- C3 witness: the amended theorem applied to the spec's three-sample
scenario via the stable resolution, which is one possible outcome. -/
theorem c3_witness :
    dedupRel dedupScenario (dedup dedupScenario) ∧
    ((((dedup dedupScenario).map fun s => s.uid).Nodup) ∧
      (∀ u : String, (∃ s ∈ dedupScenario, s.uid = u) →
        ∃ s ∈ dedup dedupScenario, s.uid = u) ∧
      (∀ s ∈ dedup dedupScenario, s ∈ dedupScenario) ∧
      (∀ s ∈ dedup dedupScenario, ∀ t ∈ dedupScenario,
        t.uid = s.uid → s.timestamp ≤ t.timestamp)) :=
  ⟨dedupRel_dedup dedupScenario,
    c3_dedup_unique_earliest dedupScenario (dedup dedupScenario)
      (dedupRel_dedup dedupScenario)⟩

/-- Two rows with distinct uids sharing one timestamp — the common case in
this collector, where every row of a collection cycle carries the same
strftime second. -/
def distinctUidEqualTs : List Sample :=
  [⟨1, "a", "p1", "u1", 10, 0, 1⟩, ⟨1, "b", "p2", "u2", 5, 0, 1⟩]

/-- C4 counterexample: the sort-then-drop-duplicates line applied to
`distinctUidEqualTs` may return it unchanged (first conjunct: it is already
timestamp-ordered with distinct uids), but a second application may return
the two equal-timestamp rows swapped (second conjunct: the swapped list is
also a timestamp-ordered permutation, and dropping duplicates removes
nothing) — a list different from the first output.  Sequence-equality
idempotence `Dedup(Dedup(S)) = Dedup(S)` is therefore not a guaranteed
program property: the unstable sort may reorder equal-timestamp rows of
distinct uids on re-application. -/
theorem c4_counterexample :
    dedupRel distinctUidEqualTs distinctUidEqualTs ∧
    dedupRel distinctUidEqualTs
      [⟨1, "b", "p2", "u2", 5, 0, 1⟩, ⟨1, "a", "p1", "u1", 10, 0, 1⟩] ∧
    ([⟨1, "b", "p2", "u2", 5, 0, 1⟩, ⟨1, "a", "p1", "u1", 10, 0, 1⟩] :
      List Sample) ≠ distinctUidEqualTs := by
  refine ⟨⟨distinctUidEqualTs, List.Perm.refl _, by decide, by decide⟩,
    ⟨[⟨1, "b", "p2", "u2", 5, 0, 1⟩, ⟨1, "a", "p1", "u1", 10, 0, 1⟩],
      by decide, by decide, by decide⟩, by decide⟩

/-- C4 (amended): deduplication is idempotent up to the unspecified order of
equal-timestamp rows — every possible output `D` of `Dedup(S)` is itself a
possible output of `Dedup(D)` (a second application can leave `D` unchanged),
and every possible output of `Dedup(D)` is a permutation of `D` (the
drop-duplicates pass removes nothing from a distinct-uid table, only the
re-sort may reorder equal timestamps); and every possible output of
`Dedup(S)` has at most one row per distinct uid of `S`. -/
theorem c4_dedup_idempotent_upto (S D : List Sample) (h : dedupRel S D) :
    dedupRel D D ∧
    (∀ D2 : List Sample, dedupRel D D2 → D2.Perm D) ∧
    D.length ≤ ((S.map fun s => s.uid).dedup).length := by
  rcases h with ⟨p, hperm, hsort, rfl⟩
  have hsub := dropDupByUid_sublist [] p
  have hsorted : (dropDupByUid [] p).Pairwise tsLe := List.Pairwise.sublist hsub hsort
  have hnd : ((dropDupByUid [] p).map fun s => s.uid).Nodup :=
    nodup_uid_dropDupByUid [] p
  refine ⟨?_, ?_, ?_⟩
  · exact ⟨dropDupByUid [] p, List.Perm.refl _, hsorted,
      (dropDupByUid_eq_self (fun s _ => List.not_mem_nil _) hnd).symm⟩
  · rintro D2 ⟨q, hq, hqsort, rfl⟩
    have hqnd : (q.map fun s => s.uid).Nodup :=
      ((hq.map fun s => s.uid).nodup_iff).mpr hnd
    rw [dropDupByUid_eq_self (fun s _ => List.not_mem_nil _) hqnd]
    exact hq
  · have hsubm : ∀ u ∈ (dropDupByUid [] p).map fun s => s.uid,
        u ∈ S.map fun s => s.uid := by
      intro u hu
      rcases List.mem_map.mp hu with ⟨y, hy, rfl⟩
      exact List.mem_map.mpr ⟨y, hperm.subset (hsub.subset hy), rfl⟩
    calc (dropDupByUid [] p).length
        = ((dropDupByUid [] p).map fun s => s.uid).length := (List.length_map _ _).symm
      _ = ((dropDupByUid [] p).map fun s => s.uid).toFinset.card :=
          (List.toFinset_card_of_nodup hnd).symm
      _ ≤ (S.map fun s => s.uid).toFinset.card :=
          Finset.card_le_card fun u hu =>
            List.mem_toFinset.mpr (hsubm u (List.mem_toFinset.mp hu))
      _ = ((S.map fun s => s.uid).dedup).length := List.card_toFinset _

/-- C4 witness: the amended theorem applied to `distinctUidEqualTs` and its
stable-resolution output. -/
theorem c4_witness :
    dedupRel distinctUidEqualTs (dedup distinctUidEqualTs) ∧
    (dedupRel (dedup distinctUidEqualTs) (dedup distinctUidEqualTs) ∧
      (∀ D2 : List Sample, dedupRel (dedup distinctUidEqualTs) D2 →
        D2.Perm (dedup distinctUidEqualTs)) ∧
      (dedup distinctUidEqualTs).length ≤
        ((distinctUidEqualTs.map fun s => s.uid).dedup).length) :=
  ⟨dedupRel_dedup distinctUidEqualTs,
    c4_dedup_idempotent_upto distinctUidEqualTs (dedup distinctUidEqualTs)
      (dedupRel_dedup distinctUidEqualTs)⟩

/-- C7 counterexample: with `durationMinutes = 0` (a configuration the claim
says must fail fast with a configuration error) and `intervalSeconds = 60`,
`run_collection` derives `iterations = 0`, performs no sampling, and
completes normally with no error of any kind. -/
theorem c7_counterexample :
    run_collection 0 60 = ⟨0, 0, none⟩ ∧ (0 : Int) ≤ 0 := by decide

/-- C7 (amended): there is no configuration validation.  An interval of 0
aborts the run with a `ZeroDivisionError` raised by the iteration
computation (before any sampling, but as an unhandled exception, not a
configuration error); a non-positive duration with a positive interval makes
the derived iteration count non-positive, so the loop body never runs and
the call completes silently with zero iterations. -/
theorem c7_no_config_validation (d i : Int) :
    (i = 0 → run_collection d i = ⟨0, 0, some RunError.zeroDivision⟩) ∧
    (0 < i → d ≤ 0 → run_collection d i = ⟨0, 0, none⟩) := by
  constructor
  · intro h
    subst h
    rfl
  · intro hi hd
    have h0 : ¬ i = 0 := by omega
    have hiter : (Int.tdiv (d * 60) i).toNat = 0 := by
      rw [Int.toNat_eq_zero]
      have h3 : (0 : Int) ≤ -(d * 60) := by omega
      have h4 := Int.tdiv_nonpos h3 (b := -i) (by omega)
      rw [Int.neg_tdiv, Int.tdiv_neg] at h4
      omega
    simp only [run_collection, if_neg h0, hiter]
    rw [if_neg (by omega : ¬(i < 0 ∧ 2 ≤ (0 : Nat)))]

/-- C7 witness: the amended theorem applied at interval 0 (duration 5) and
at duration -3 with interval 60. -/
theorem c7_witness :
    run_collection 5 0 = ⟨0, 0, some RunError.zeroDivision⟩ ∧
    run_collection (-3) 60 = ⟨0, 0, none⟩ :=
  ⟨(c7_no_config_validation 5 0).1 rfl,
    (c7_no_config_validation (-3) 60).2 (by decide) (by decide)⟩

/-- C8: for a positive duration and interval the loop runs exactly
`floor(durationMinutes * 60 / intervalSeconds)` sampling iterations, sleeps
once between each pair of consecutive iterations (so `iterations - 1` times,
never after the last), and raises no error. -/
theorem c8_loop_iterations (d i : Int) (hd : 0 < d) (hi : 0 < i) :
    run_collection d i =
      ⟨d.toNat * 60 / i.toNat, d.toNat * 60 / i.toNat - 1, none⟩ := by
  have h0 : ¬ i = 0 := by omega
  have hnat : (Int.tdiv (d * 60) i).toNat = d.toNat * 60 / i.toNat := by
    obtain ⟨a, rfl⟩ : ∃ a : Nat, d = (a : Int) :=
      ⟨d.toNat, (Int.toNat_of_nonneg (le_of_lt hd)).symm⟩
    obtain ⟨b, rfl⟩ : ∃ b : Nat, i = (b : Int) :=
      ⟨i.toNat, (Int.toNat_of_nonneg (le_of_lt hi)).symm⟩
    rfl
  simp only [run_collection, if_neg h0, hnat]
  rw [if_neg fun h => absurd h.1 (by omega : ¬ i < 0)]

/-- C8 witness: the spec scenario `durationMinutes = 5, intervalSeconds = 60`
runs exactly 5 iterations with 4 sleeps and no error. -/
theorem c8_witness :
    (0 : Int) < 5 ∧ (0 : Int) < 60 ∧ run_collection 5 60 = ⟨5, 4, none⟩ :=
  ⟨by decide, by decide, c8_loop_iterations 5 60 (by decide) (by decide)⟩

/-- Two namespaces with equal mean queue time, used to exhibit the missing
tie-break of the namespace-statistics sort. -/
def equalMeanInput : List Sample :=
  [⟨0, "b", "p1", "u1", 5, 0, 0⟩, ⟨0, "a", "p2", "u2", 5, 0, 0⟩]

/-- C9 counterexample: on two groups with equal means, the table listing "b"
before "a" is a legitimate outcome of the unstable
`sort_values('AvgQueueTime', ascending=False)` (it is a permutation of the
aggregate rows ordered by non-increasing mean), yet it is not ordered by the
claimed key tie-break, which would put "a" first (as the stable resolution
`byGroup` does).  The source sorts by mean only and never by key. -/
theorem c9_counterexample :
    byGroupRel equalMeanInput [⟨"b", 1, 5, 5, 5⟩, ⟨"a", 1, 5, 5, 5⟩] ∧
    byGroup equalMeanInput = [⟨"a", 1, 5, 5, 5⟩, ⟨"b", 1, 5, 5, 5⟩] ∧
    ([⟨"b", 1, 5, 5, 5⟩, ⟨"a", 1, 5, 5, 5⟩] : List GroupStat) ≠
      [⟨"a", 1, 5, 5, 5⟩, ⟨"b", 1, 5, 5, 5⟩] := by
  have h1 : nsKeys equalMeanInput = ["a", "b"] := by decide
  have hgs : groupStats equalMeanInput = [⟨"a", 1, 5, 5, 5⟩, ⟨"b", 1, 5, 5, 5⟩] := by
    rw [groupStats, h1]
    simp [groupStat, groupRows, qtMax, qtMin, equalMeanInput]
  refine ⟨⟨?_, by decide⟩, ?_, by decide⟩
  · rw [hgs]
    decide
  · show List.insertionSort meanGe (groupStats equalMeanInput) = _
    rw [hgs]
    decide

/-- C9 (amended): the namespace-statistics table is sorted by non-increasing
mean queue time and is a permutation of the per-group aggregate rows, whose
keys are exactly the distinct namespaces of the input; the relative order of
groups with equal means is however unspecified — the sort is not stable and
no key tie-break exists in the source (the computation is still a
deterministic function of the input for any fixed sort resolution). -/
theorem c9_bygroup_sorted (S : List Sample) :
    (byGroup S).Pairwise meanGe ∧
    (byGroup S).Perm (groupStats S) ∧
    ((byGroup S).map fun g => g.key).Perm ((S.map fun s => s.ns).dedup) := by
  refine ⟨List.sorted_insertionSort meanGe (groupStats S),
    List.perm_insertionSort meanGe (groupStats S), ?_⟩
  have h1 : ((byGroup S).map fun g => g.key).Perm
      ((groupStats S).map fun g => g.key) :=
    (List.perm_insertionSort meanGe (groupStats S)).map _
  have h2 : ((groupStats S).map fun g => g.key) = nsKeys S := by
    rw [groupStats, List.map_map]
    have h3 : ((fun g => GroupStat.key g) ∘ groupStat S) = id :=
      funext fun k => rfl
    rw [h3, List.map_id]
  have h4 : (nsKeys S).Perm ((S.map fun s => s.ns).dedup) :=
    List.perm_insertionSort strLe _
  rw [h2] at h1
  exact h1.trans h4
